import Mathlib

set_option maxRecDepth 40000

/-!
Shallow embedding of the content-extraction engine of `src/content.js`
(class `ArticleExtractor`) and of the whole-page fallback message listener
at the bottom of that file.

Modelling choices:
* A document is a tree of `Node`s (tag, class attribute, id attribute, the
  node's own text, an optional bounding rectangle, children).  `textContent`
  is the node's own text followed by its descendants' text, document order.
* JavaScript strings are `String`, JS numbers arising in the scorer are `ℚ`
  (the score formula uses the fractional `textLength / 100`).
* `getBoundingClientRect`/`window.innerWidth` faults (headless hosts) are
  modelled by `rect = none` on the node; the viewport width is a parameter.
* The `try { ... } catch` of `extractArticleText` is modelled by a
  `fault : Option String` parameter: `some msg` plays the role of an
  exception with message `msg` thrown inside the `try` block, and the
  function returns the `catch` branch's result for it.  The per-selector
  `try`/`catch` inside `extractTextFromElement` is modelled by a
  `selFaulty : Selector → Bool` oracle: a faulty selector's
  `querySelectorAll`/`remove` pass is caught and skipped, the loop goes on.
-/

/-- JS whitespace (`\s`) restricted to the characters the model uses. -/
def isWs (c : Char) : Bool :=
  c = ' ' || c = '\n' || c = '\t' || c = '\r' || c = '\x0b' || c = '\x0c'

/-- One pass of `.replace(/\s+/g, ' ')`: every maximal whitespace run becomes
one space.  The flag says whether the previous character was whitespace. -/
def collapseWsAux : Bool → List Char → List Char
  | _, [] => []
  | prevWs, c :: rest =>
    if isWs c then
      if prevWs then collapseWsAux true rest
      else ' ' :: collapseWsAux true rest
    else c :: collapseWsAux false rest

/-- `.replace(/\s+/g, ' ')` on a string. -/
def collapseWsStr (s : String) : String := ⟨collapseWsAux false s.data⟩

/-- `String.prototype.split(/\s+/)`: pieces between maximal whitespace runs;
a leading run yields a leading empty piece, a trailing run a trailing one,
and `"".split` yields `[""]`.  The flag says whether we are inside a
whitespace run whose piece has already been emitted. -/
def splitWsAux : Bool → List Char → List Char → List (List Char)
  | _, cur, [] => [cur.reverse]
  | skipping, cur, c :: rest =>
    if isWs c then
      if skipping then splitWsAux true [] rest
      else cur.reverse :: splitWsAux true [] rest
    else splitWsAux false (c :: cur) rest

def splitWs (l : List Char) : List (List Char) := splitWsAux false [] l

/-- `String.prototype.trim()` on a character list. -/
def trimChars (l : List Char) : List Char := (l.dropWhile isWs).rdropWhile isWs

/-- `String.prototype.trim()`. -/
def jsTrim (s : String) : String := ⟨trimChars s.data⟩

/-- `String.prototype.toLowerCase()`. -/
def jsToLower (s : String) : String := ⟨s.data.map Char.toLower⟩

/-- Whether `needle` occurs at the start of the list. -/
def startsWithSeq : List Char → List Char → Bool
  | [], _ => true
  | _ :: _, [] => false
  | a :: as, b :: bs => a = b && startsWithSeq as bs

/-- Whether `needle` occurs anywhere in the list. -/
def containsSeq (needle : List Char) : List Char → Bool
  | [] => needle.isEmpty
  | c :: rest => startsWithSeq needle (c :: rest) || containsSeq needle rest

/-- `String.prototype.includes(sub)`. -/
def strIncludes (s sub : String) : Bool := containsSeq sub.data s.data

/-- `String.prototype.substring(0, n)`. -/
def substringTo (s : String) (n : Nat) : String := ⟨s.data.take n⟩

/-- One greedy match of the tail `\s*\n\s*\n` of the regex `/\n\s*\n\s*\n/`
right after its first `\n` was consumed: the regex engine matches iff the
maximal whitespace run that follows holds at least two more line breaks, and
the match consumes that run up to and including its last line break.
Returns what is left after the match. -/
def matchBreaks (rest : List Char) : Option (List Char) :=
  let run := rest.takeWhile isWs
  if run.count '\n' ≥ 2 then
    let k := (run.reverse.takeWhile (fun c => !(c = '\n'))).length
    some (rest.drop (run.length - k))
  else none

/-- `.replace(/\n\s*\n\s*\n/g, '\n\n')`, left to right; the fuel (initially
the list's length, enough since every step consumes at least one character)
keeps the recursion structural. -/
def tripleAux : Nat → List Char → List Char
  | 0, l => l
  | _ + 1, [] => []
  | fuel + 1, c :: rest =>
    if c = '\n' then
      match matchBreaks rest with
      | some rest2 => '\n' :: '\n' :: tripleAux fuel rest2
      | none => c :: tripleAux fuel rest
    else c :: tripleAux fuel rest

def replaceTripleBreaks (l : List Char) : List Char := tripleAux l.length l

/-- A bounding rectangle, as far as the scorer reads it. -/
structure Rect where
  left : ℚ
  width : ℚ

/-- A DOM element: tag name, class attribute, id attribute, the element's own
text, an optional bounding rectangle (none when layout geometry is
unavailable), and child elements. -/
inductive Node where
  | mk (tag className idAttr ownText : String) (rect : Option Rect) (children : List Node)

def Node.tag : Node → String
  | .mk t _ _ _ _ _ => t

def Node.className : Node → String
  | .mk _ c _ _ _ _ => c

def Node.idAttr : Node → String
  | .mk _ _ i _ _ _ => i

def Node.ownText : Node → String
  | .mk _ _ _ o _ _ => o

def Node.rect : Node → Option Rect
  | .mk _ _ _ _ r _ => r

def Node.children : Node → List Node
  | .mk _ _ _ _ _ cs => cs

mutual
def textContent : Node → String
  | .mk _ _ _ own _ cs => own ++ textContentList cs
def textContentList : List Node → String
  | [] => ""
  | n :: ns => textContent n ++ textContentList ns
end

mutual
def descendants : Node → List Node
  | .mk _ _ _ _ _ cs => descendantsList cs
def descendantsList : List Node → List Node
  | [] => []
  | n :: ns => n :: (descendants n ++ descendantsList ns)
end

/-- Every node of the list and below it, paired with its parent element,
in document (preorder) order; the first argument is the parent of the
list's nodes. -/
def nodesWithParent : Node → List Node → List (Node × Node)
  | _, [] => []
  | parent, .mk t c i o r cs :: ns =>
    (Node.mk t c i o r cs, parent) ::
      (nodesWithParent (.mk t c i o r cs) cs ++ nodesWithParent parent ns)

/-- All elements of the document, root included, document order. -/
def allElems (doc : Node) : List Node := doc :: descendants doc

/-- All elements of the document with their parent element (`none` for the
root, whose `parentElement` is null), document order. -/
def allElemsWP (doc : Node) : List (Node × Option Node) :=
  (doc, none) :: (nodesWithParent doc doc.children).map (fun p => (p.1, some p.2))

/-- A CSS selector of the two shapes the extractor uses: a tag name
(`article`) or a class name (`.content`). -/
inductive Selector where
  | tagSel (t : String)
  | clsSel (c : String)

/-- The whitespace-separated tokens of a class attribute. -/
def classTokens (s : String) : List (List Char) :=
  (splitWs s.data).filter (fun w => w.length > 0)

def matchesSel (sel : Selector) (n : Node) : Bool :=
  match sel with
  | .tagSel t => n.tag = t
  | .clsSel c => (classTokens n.className).contains c.data

/-- `document.querySelector(sel₁, …)`: first matching element in document
order (the root element can match). -/
def querySelector (doc : Node) (sels : List Selector) : Option Node :=
  (allElems doc).find? (fun n => sels.any (fun s => matchesSel s n))

/-- `document.querySelectorAll(sel₁, …)`, document order. -/
def querySelectorAll (doc : Node) (sels : List Selector) : List Node :=
  (allElems doc).filter (fun n => sels.any (fun s => matchesSel s n))

/-- `element.querySelectorAll(sel₁, …)`: proper descendants only. -/
def elemQueryAll (e : Node) (sels : List Selector) : List Node :=
  (descendants e).filter (fun n => sels.any (fun s => matchesSel s n))

/-- `this.selectors.content` of the source, in order. -/
def contentSelectors : List Selector :=
  [.clsSel "content", .clsSel "article-content", .clsSel "post-content",
   .clsSel "entry-content", .clsSel "article-body", .clsSel "post-body",
   .clsSel "story-body", .clsSel "article-text", .clsSel "content-body",
   .clsSel "main-content"]

/-- `this.selectors.exclude` of the source, in order. -/
def excludeSelectors : List Selector :=
  [.tagSel "nav", .tagSel "header", .tagSel "footer", .tagSel "aside",
   .clsSel "sidebar", .clsSel "navigation", .clsSel "menu", .clsSel "ads",
   .clsSel "advertisement", .clsSel "comments", .clsSel "social",
   .clsSel "share", .clsSel "related", .clsSel "recommended",
   .clsSel "popup", .clsSel "modal", .tagSel "script", .tagSel "style",
   .tagSel "noscript"]

def excludeTags : List String := ["nav", "header", "footer", "aside", "script", "style"]

def excludeKeywords : List String :=
  ["nav", "menu", "sidebar", "ads", "advertisement",
   "comments", "social", "share", "popup", "modal"]

/-- `shouldExcludeElement(element)` of the source, on a present element. -/
def shouldExcludeElement (e : Node) : Bool :=
  let tagName := jsToLower e.tag
  let className := jsToLower e.className
  let idAttr := jsToLower e.idAttr
  excludeTags.contains tagName ||
    excludeKeywords.any (fun k => strIncludes className k || strIncludes idAttr k)

/-- `shouldExcludeElement` on a possibly null element (`if (!element) return true`). -/
def shouldExcludeParent : Option Node → Bool
  | none => true
  | some e => shouldExcludeElement e

/-- `isValidContent(element)`. -/
def isValidContent (e : Node) : Bool :=
  let text := jsTrim (textContent e)
  let paragraphs := elemQueryAll e [.tagSel "p"]
  decide (text.length > 200) && decide (paragraphs.length ≥ 2)

/-- The center-of-page bonus block of `calculateContentScore`, `try`-wrapped
in the source: with geometry unavailable it contributes 0. -/
def geometryBonus (viewportWidth : ℚ) (rect : Option Rect) : ℚ :=
  match rect with
  | none => 0
  | some r =>
    if |r.left + r.width / 2 - viewportWidth / 2| < viewportWidth * (3 / 10) then 5 else 0

/-- Whether the lower-cased class or id value carries one of the
article-related keywords of `calculateContentScore`. -/
def hasContentKeyword (attr : String) : Bool :=
  strIncludes attr "content" || strIncludes attr "article" ||
    strIncludes attr "post" || strIncludes attr "story"

/-- Whether the lower-cased class value carries one of the
navigation-related keywords of `calculateContentScore`. -/
def hasNavKeyword (attr : String) : Bool :=
  strIncludes attr "nav" || strIncludes attr "sidebar" ||
    strIncludes attr "menu" || strIncludes attr "footer"

/-- `calculateContentScore(element)`. -/
def calculateContentScore (viewportWidth : ℚ) (element : Node) : ℚ :=
  ((elemQueryAll element [.tagSel "p"]).length : ℚ) * 2
    + min (((jsTrim (textContent element)).length : ℚ) / 100) 20
    + (if hasContentKeyword (jsToLower element.className) then 10 else 0)
    + (if hasContentKeyword (jsToLower element.idAttr) then 10 else 0)
    - (if hasNavKeyword (jsToLower element.className) then 20 else 0)
    + geometryBonus viewportWidth element.rect

/-- `findSemanticContent()`: first `<article>`, then `<main>`, each accepted
when `isValidContent` holds; the method tag the source writes into
`dataset.extractionMethod` is returned alongside the node. -/
def findSemanticContent (doc : Node) : Option (Node × String) :=
  match (querySelector doc [.tagSel "article"]).filter isValidContent with
  | some a => some (a, "semantic-article")
  | none =>
    match (querySelector doc [.tagSel "main"]).filter isValidContent with
    | some m => some (m, "semantic-main")
    | none => none

/-- `findContentByClass()`: the selectors in list order, each selector's
first match in document order, returning on the first valid one. -/
def findContentByClass (doc : Node) : Option (Node × String) :=
  match contentSelectors.findSome?
      (fun sel => (querySelector doc [sel]).filter isValidContent) with
  | some e => some (e, "class-based")
  | none => none

/-- The head of the candidate list after the source's
`candidates.sort((a, b) => b.score - a.score)` (a stable descending sort):
the first candidate carrying the maximal score. -/
def bestCandidate : List (Node × ℚ) → Option (Node × ℚ)
  | [] => none
  | c :: cs =>
    match bestCandidate cs with
    | none => some c
    | some b => if c.2 ≥ b.2 then some c else some b

/-- `findContentByHeuristics()`. -/
def findContentByHeuristics (viewportWidth : ℚ) (doc : Node) : Option (Node × String) :=
  let containers := querySelectorAll doc
    [.tagSel "div", .tagSel "section", .tagSel "article", .tagSel "main"]
  let candidates := containers.filterMap (fun container =>
    if shouldExcludeElement container then none
    else
      let score := calculateContentScore viewportWidth container
      if score > 0 then some (container, score) else none)
  match bestCandidate candidates with
  | some c => if c.2 > 10 then some (c.1, "heuristic") else none
  | none => none

/-- `findContentFromParagraphs()`: a virtual `<div>` holding a clone of every
meaningful paragraph. -/
def findContentFromParagraphs (doc : Node) : Option (Node × String) :=
  let paragraphs := (allElemsWP doc).filter (fun pp => matchesSel (.tagSel "p") pp.1)
  if paragraphs.length < 3 then none
  else
    let meaningful := paragraphs.filter (fun pp =>
      decide ((jsTrim (textContent pp.1)).length > 50) && !shouldExcludeParent pp.2)
    let container := Node.mk "div" "" "" "" none (meaningful.map Prod.fst)
    let totalText := meaningful.foldl
      (fun acc pp => acc ++ jsTrim (textContent pp.1) ++ " ") ""
    if totalText.length > 200 then some (container, "paragraphs") else none

/-- The strategy cascade of `extractArticleText` (semantic, class-based,
heuristic, paragraphs), first success. -/
def locate (viewportWidth : ℚ) (doc : Node) : Option (Node × String) :=
  match findSemanticContent doc with
  | some r => some r
  | none =>
    match findContentByClass doc with
    | some r => some r
    | none =>
      match findContentByHeuristics viewportWidth doc with
      | some r => some r
      | none => findContentFromParagraphs doc

mutual
/-- Remove from the tree every proper descendant matching the selector
(`clone.querySelectorAll(selector).forEach(el => el.remove())`). -/
def removeMatching (sel : Selector) : Node → Node
  | .mk t c i o r cs => .mk t c i o r (removeMatchingList sel cs)
def removeMatchingList (sel : Selector) : List Node → List Node
  | [] => []
  | n :: ns =>
    if matchesSel sel n then removeMatchingList sel ns
    else removeMatching sel n :: removeMatchingList sel ns
end

/-- The exclusion loop of `extractTextFromElement`: each selector's removal
pass sits in its own `try`/`catch`, so a faulty selector is skipped and the
loop continues with the next one. -/
def removeExcluded (selFaulty : Selector → Bool) (element : Node) : Node :=
  excludeSelectors.foldl
    (fun acc sel => if selFaulty sel then acc else removeMatching sel acc) element

def paragraphHeadingSels : List Selector :=
  [.tagSel "p", .tagSel "h1", .tagSel "h2", .tagSel "h3",
   .tagSel "h4", .tagSel "h5", .tagSel "h6"]

/-- `extractTextFromElement(element)`. -/
def extractTextFromElement (selFaulty : Selector → Bool) (element : Node) : String :=
  let clone := removeExcluded selFaulty element
  let paragraphs := elemQueryAll clone paragraphHeadingSels
  let text := paragraphs.foldl (fun acc p =>
    let pText := jsTrim (textContent p)
    if pText.length > 0 then acc ++ pText ++ "\n\n" else acc) ""
  if (jsTrim text).length = 0 then textContent clone else text

/-- `extractTextFromElement` run with an arbitrary exclusion-selector list
and no faults: used to state what a faulty selector changes. -/
def extractTextWithSels (sels : List Selector) (element : Node) : String :=
  let clone := sels.foldl (fun acc sel => removeMatching sel acc) element
  let paragraphs := elemQueryAll clone paragraphHeadingSels
  let text := paragraphs.foldl (fun acc p =>
    let pText := jsTrim (textContent p)
    if pText.length > 0 then acc ++ pText ++ "\n\n" else acc) ""
  if (jsTrim text).length = 0 then textContent clone else text

/-- `cleanText(text)`. -/
def cleanText (text : String) : String :=
  if text = "" then ""
  else jsTrim ⟨replaceTripleBreaks (collapseWsAux false text.data)⟩

/-- `countWords(text)`. -/
def countWords (text : String) : Nat :=
  if text = "" then 0
  else ((splitWs (jsTrim text).data).filter (fun w => w.length > 0)).length

/-- The result object `extractArticleText` (and the fallback listener)
returns; absent JS fields are `none`. -/
structure ExtractionResult where
  success : Bool
  text : String
  wordCount : Nat
  url : String
  title : String
  extractionMethod : Option String := none
  error : Option String := none

/-- The body of `extractArticleText`'s `try` block. -/
def extractArticleBody (viewportWidth : ℚ) (selFaulty : Selector → Bool)
    (doc : Node) (url title : String) : ExtractionResult :=
  match locate viewportWidth doc with
  | none =>
    { success := false
      error := some "No article content found on this page. This might not be an article page."
      text := ""
      wordCount := 0
      url := url
      title := title }
  | some (contentElement, method) =>
    let extractedText := extractTextFromElement selFaulty contentElement
    let cleanedText := cleanText extractedText
    if cleanedText.length < 100 then
      { success := false
        error := some "Article content too short for analysis (minimum 100 characters required)"
        text := cleanedText
        wordCount := countWords cleanedText
        url := url
        title := title }
    else
      { success := true
        text := cleanedText
        wordCount := countWords cleanedText
        url := url
        title := title
        extractionMethod := some method }

/-- `extractArticleText()`: `fault = some msg` models an exception with
message `msg` thrown inside the `try` block, answered by the `catch`
branch's result. -/
def extractArticleText (viewportWidth : ℚ) (selFaulty : Selector → Bool)
    (fault : Option String) (doc : Node) (url title : String) : ExtractionResult :=
  match fault with
  | some msg =>
    { success := false
      error := some ("Failed to extract article text: " ++ msg)
      text := ""
      wordCount := 0
      url := url
      title := title }
  | none => extractArticleBody viewportWidth selFaulty doc url title

/-- The fallback message listener's `extractText` branch: whole-page text
(`document.body.textContent`), whitespace-normalized; `fault` models an
exception inside its `try` block. -/
def fallbackExtract (fault : Option String) (body : Node) (url title : String) :
    ExtractionResult :=
  match fault with
  | some msg =>
    { success := false
      error := some ("Fallback extraction failed: " ++ msg)
      text := ""
      wordCount := 0
      url := url
      title := title }
  | none =>
    let bodyText := textContent body
    let cleaned := jsTrim (collapseWsStr bodyText)
    if cleaned.length > 100 then
      { success := true
        text := substringTo cleaned 5000
        wordCount := (splitWs cleaned.data).length
        url := url
        title := title
        extractionMethod := some "fallback" }
    else
      { success := false
        error := some "Page content too short for analysis"
        text := cleaned
        wordCount := 0
        url := url
        title := title }

/-! ### Definitions used to state the claims -/

/-- The spec's strategy cascade, named and ordered as §4.1 lists it; each
entry is the strategy's candidate search without its method tag. -/
def strategyList (vw : ℚ) : List (String × (Node → Option Node)) :=
  [("semantic-article", fun doc => (querySelector doc [.tagSel "article"]).filter isValidContent),
   ("semantic-main", fun doc => (querySelector doc [.tagSel "main"]).filter isValidContent),
   ("class-based", fun doc =>
     contentSelectors.findSome? (fun sel => (querySelector doc [sel]).filter isValidContent)),
   ("heuristic", fun doc => (findContentByHeuristics vw doc).map Prod.fst),
   ("paragraphs", fun doc => (findContentFromParagraphs doc).map Prod.fst)]

/-- `calculateContentScore` with its navigation penalty term left out, used
to state that the penalty is exactly 20, applied once. -/
def contentScoreSansNavPenalty (viewportWidth : ℚ) (element : Node) : ℚ :=
  ((elemQueryAll element [.tagSel "p"]).length : ℚ) * 2
    + min (((jsTrim (textContent element)).length : ℚ) / 100) 20
    + (if hasContentKeyword (jsToLower element.className) then 10 else 0)
    + (if hasContentKeyword (jsToLower element.idAttr) then 10 else 0)
    + geometryBonus viewportWidth element.rect

/-- `calculateContentScore` with its geometry bonus left out, used to state
what the geometry check contributes. -/
def contentScoreSansGeometry (_viewportWidth : ℚ) (element : Node) : ℚ :=
  ((elemQueryAll element [.tagSel "p"]).length : ℚ) * 2
    + min (((jsTrim (textContent element)).length : ℚ) / 100) 20
    + (if hasContentKeyword (jsToLower element.className) then 10 else 0)
    + (if hasContentKeyword (jsToLower element.idAttr) then 10 else 0)
    - (if hasNavKeyword (jsToLower element.className) then 20 else 0)

/-- The trimmed, non-empty texts of the paragraph- and heading-equivalent
descendants of a (filtered) candidate, in document order. -/
def paragraphTexts (clone : Node) : List String :=
  (elemQueryAll clone paragraphHeadingSels).filterMap (fun p =>
    let t := jsTrim (textContent p)
    if t.length > 0 then some t else none)

/-- Concatenation of a list of strings. -/
def joinAll : List String → String
  | [] => ""
  | s :: rest => s ++ joinAll rest

/-! ### Concrete documents used by witnesses and counterexamples -/

/-- The selector-fault oracle of a run where no exclusion selector throws. -/
def noSelectorFaults : Selector → Bool := fun _ => false

def pOK1 : Node :=
  .mk "p" "" "" "The committee voted on the new budget after a long debate that lasted for several hours on Tuesday evening." none []

def pOK2 : Node :=
  .mk "p" "" "" "Residents of the town said the decision would change daily life in many small ways over the coming year." none []

/-- A well-formed article: two long paragraphs, 211 characters of text. -/
def articleOK : Node := .mk "article" "" "" "" none [pOK1, pOK2]

def docOK : Node := .mk "body" "" "" "" none [articleOK]

/-- A `div.content` holding the same two long paragraphs. -/
def divC8 : Node := .mk "div" "content" "" "" none [pOK1, pOK2]

def docC8 : Node := .mk "body" "" "" "" none [divC8]

/-- A `div` with a `sidebar` class hint. -/
def navDiv : Node := .mk "div" "sidebar" "" "" none []

/-- The spec's §8 end-to-end example page: an article holding an `h1`
titled `Title` and two paragraphs of about sixty characters each, and
nothing else (58 and 57 characters here; 120 characters of text in all). -/
def h1C4 : Node := .mk "h1" "" "" "Title" none []

def pC4a : Node :=
  .mk "p" "" "" "The mayor opened the meeting with a short statement today." none []

def pC4b : Node :=
  .mk "p" "" "" "Council members then argued about the road repair budget." none []

def articleC4 : Node := .mk "article" "" "" "" none [h1C4, pC4a, pC4b]

def docC4 : Node := .mk "body" "" "" "" none [articleC4]

/-- A candidate with two short paragraphs, for the normalizer's join. -/
def pC5a : Node := .mk "p" "" "" "First paragraph of the story." none []

def pC5b : Node := .mk "p" "" "" "Second paragraph of the story." none []

def eC5 : Node := .mk "div" "" "" "" none [pC5a, pC5b]

/-- A childless `div` whose horizontal center sits 20 units off the center
of a 100-unit viewport: inside the source's band (`20 < 100 * 0.3`), outside
the spec's band (`20 ≥ (100 / 2) * 0.3`). -/
def eC6 : Node := .mk "div" "" "" "" (some ⟨60, 20⟩) []

/-- A page whose body text is eleven characters, for the fallback listener. -/
def bodyC7 : Node := .mk "body" "" "" "hello world" none []

def paTiny : Node := .mk "p" "" "" "a" none []

def pbTiny : Node := .mk "p" "" "" "b" none []

/-- A valid article (229 characters of direct text, two paragraphs) whose
paragraph texts are nevertheless tiny, so the normalized text is short. -/
def articleShort : Node :=
  .mk "article" "" ""
    "Raw text that sits directly inside the article element and not inside any paragraph, long enough to pass the two hundred character validity threshold used by isValidContent, which only counts the total text length of the subtree." none [paTiny, pbTiny]

def docShort : Node := .mk "body" "" "" "" none [articleShort]

/-! ### Helper lemmas -/

theorem dropWhile_head_false (p : Char → Bool) :
    ∀ (l : List Char) (c : Char) (t : List Char), l.dropWhile p = c :: t → p c = false := by
  intro l
  induction l with
  | nil => intro c t h; simp at h
  | cons a as ih =>
    intro c t h
    rw [List.dropWhile_cons] at h
    by_cases hp : p a
    · rw [if_pos hp] at h
      exact ih c t h
    · rw [if_neg hp] at h
      obtain ⟨rfl, -⟩ := List.cons.injEq .. ▸ h
      simpa using hp

theorem trimChars_head_not_ws (l : List Char) (c : Char) (t : List Char)
    (h : trimChars l = c :: t) : isWs c = false := by
  unfold trimChars at h
  obtain ⟨s, hs⟩ := List.rdropWhile_prefix isWs (l.dropWhile isWs)
  rw [h] at hs
  exact dropWhile_head_false isWs l c (t ++ s) (by simpa using hs.symm)

theorem trimChars_cons_of_head (l : List Char) (c : Char) (t : List Char)
    (hl : l = c :: t) (hc : isWs c = false) : ∃ t2, trimChars l = c :: t2 := by
  subst hl
  unfold trimChars
  rw [List.dropWhile_cons, if_neg (by simp [hc])]
  have hne : (c :: t).rdropWhile isWs ≠ [] := by
    rw [Ne, List.rdropWhile_eq_nil_iff]
    intro hall
    have := hall c (by simp)
    simp [this] at hc
  obtain ⟨s, hs⟩ := List.rdropWhile_prefix isWs (c :: t)
  rcases hr : (c :: t).rdropWhile isWs with - | ⟨d, t2⟩
  · exact absurd hr hne
  · rw [hr] at hs
    have : d = c := by
      have := hs
      simp only [List.cons_append] at this
      exact (List.cons.injEq .. ▸ this).1
    exact ⟨t2, by rw [this]⟩

theorem mem_trimChars {c : Char} {l : List Char} (h : c ∈ trimChars l) : c ∈ l := by
  unfold trimChars at h
  have h1 : c ∈ l.dropWhile isWs :=
    (List.rdropWhile_prefix isWs (l.dropWhile isWs)).sublist.subset h
  exact (List.dropWhile_sublist isWs).subset h1

theorem trimChars_eq_nil_iff (l : List Char) :
    trimChars l = [] ↔ ∀ c ∈ l, isWs c = true := by
  unfold trimChars
  rw [List.rdropWhile_eq_nil_iff]
  constructor
  · intro h c hc
    rcases hd : l.dropWhile isWs with - | ⟨d, t⟩
    · rw [List.dropWhile_eq_nil_iff] at hd
      exact hd c hc
    · have := h d (by rw [hd]; simp)
      have := dropWhile_head_false isWs l d t hd
      simp_all
  · intro h c hc
    exact h c ((List.dropWhile_sublist isWs).subset hc)

theorem mem_collapseWs_not_newline :
    ∀ (b : Bool) (l : List Char), '\n' ∉ collapseWsAux b l := by
  intro b l
  induction l generalizing b with
  | nil => simp [collapseWsAux]
  | cons c rest ih =>
    by_cases hws : isWs c
    · by_cases hb : b
      · simpa [collapseWsAux, hws, hb] using ih true
      · simp only [collapseWsAux, hws, if_true, hb, if_false, Bool.false_eq_true]
        intro hmem
        rcases List.mem_cons.mp hmem with h | h
        · simp at h
        · exact ih true h
    · simp only [collapseWsAux, hws, if_false, Bool.false_eq_true]
      intro hmem
      rcases List.mem_cons.mp hmem with h | h
      · subst h; simp [isWs] at hws
      · exact ih false h

theorem tripleAux_of_no_newline :
    ∀ (fuel : Nat) (l : List Char), '\n' ∉ l → tripleAux fuel l = l := by
  intro fuel
  induction fuel with
  | zero => intro l _; rfl
  | succ n ih =>
    intro l hl
    rcases l with - | ⟨c, rest⟩
    · rfl
    · have hc : ¬ c = '\n' := fun h => hl (h ▸ List.mem_cons_self c rest)
      have hrest : '\n' ∉ rest := fun h => hl (List.mem_cons_of_mem c h)
      simp only [tripleAux, if_neg hc]
      rw [ih rest hrest]

theorem replaceTripleBreaks_collapse (l : List Char) :
    replaceTripleBreaks (collapseWsAux false l) = collapseWsAux false l :=
  tripleAux_of_no_newline _ _ (mem_collapseWs_not_newline false l)

theorem cleanText_eq (s : String) : cleanText s = jsTrim (collapseWsStr s) := by
  by_cases h : s = ""
  · subst h; rfl
  · unfold cleanText collapseWsStr
    rw [if_neg h, replaceTripleBreaks_collapse]

theorem cleanText_no_newline (s : String) : '\n' ∉ (cleanText s).data := by
  rw [cleanText_eq]
  intro hmem
  exact mem_collapseWs_not_newline false s.data (mem_trimChars hmem)

theorem splitWsAux_length_pos :
    ∀ (t : List Char) (b : Bool) (cur : List Char), 1 ≤ (splitWsAux b cur t).length := by
  intro t
  induction t with
  | nil => intro b cur; simp [splitWsAux]
  | cons c rest ih =>
    intro b cur
    by_cases hws : isWs c
    · by_cases hb : b
      · simpa [splitWsAux, hws, hb] using ih true []
      · simp [splitWsAux, hws, hb]
    · simpa [splitWsAux, hws] using ih false (c :: cur)

theorem splitWsAux_filter_pos :
    ∀ (t : List Char) (cur : List Char), cur ≠ [] →
      1 ≤ ((splitWsAux false cur t).filter (fun w => w.length > 0)).length := by
  intro t
  induction t with
  | nil =>
    intro cur hcur
    have h0 : 0 < cur.length := List.length_pos.mpr hcur
    simp [splitWsAux, List.filter_cons, h0]
  | cons c rest ih =>
    intro cur hcur
    by_cases hws : isWs c
    · have h0 : 0 < cur.length := List.length_pos.mpr hcur
      simp [splitWsAux, hws, List.filter_cons, h0]
    · simpa [splitWsAux, hws] using ih (c :: cur) (by simp)

theorem string_ne_empty_of_data {s : String} {c : Char} {t : List Char}
    (h : s.data = c :: t) : s ≠ "" := by
  intro he
  rw [he] at h
  simp at h

theorem countWords_pos (s : String) (c : Char) (t : List Char)
    (hdata : s.data = c :: t) (hc : isWs c = false) : 1 ≤ countWords s := by
  have hne : s ≠ "" := string_ne_empty_of_data hdata
  obtain ⟨t2, ht2⟩ := trimChars_cons_of_head s.data c t hdata hc
  unfold countWords
  rw [if_neg hne]
  have hjt : (jsTrim s).data = c :: t2 := ht2
  rw [hjt]
  unfold splitWs
  have : splitWsAux false [] (c :: t2) = splitWsAux false [c] t2 := by
    simp [splitWsAux, hc]
  rw [this]
  exact splitWsAux_filter_pos t2 [c] (by simp)

theorem append_ne_empty_left (p m : String) (hp : p ≠ "") : p ++ m ≠ "" := by
  intro h
  apply hp
  have h0 : p.length + m.length = 0 := by
    simpa [String.length_append] using congrArg String.length h
  have hd : p.data.length = 0 := by
    have : p.length = 0 := by omega
    exact this
  have hdata : p.data = [] := List.length_eq_zero.mp hd
  calc p = ⟨p.data⟩ := rfl
    _ = ⟨[]⟩ := by rw [hdata]
    _ = "" := rfl

theorem countWords_empty : countWords "" = 0 := rfl

theorem foldl_skip_filter (f : Selector → Bool) :
    ∀ (l : List Selector) (acc : Node),
      l.foldl (fun a s => if f s then a else removeMatching s a) acc =
        (l.filter (fun s => !f s)).foldl (fun a s => removeMatching s a) acc := by
  intro l
  induction l with
  | nil => intro acc; rfl
  | cons s rest ih =>
    intro acc
    by_cases hf : f s
    · simp [List.foldl_cons, List.filter_cons, hf, ih]
    · simp [List.foldl_cons, List.filter_cons, hf, ih]

theorem findContentByHeuristics_tag (vw : ℚ) (doc : Node) (r : Node × String)
    (h : findContentByHeuristics vw doc = some r) : r.2 = "heuristic" := by
  simp only [findContentByHeuristics] at h
  split at h
  · split at h
    · cases h; rfl
    · exact absurd h (by simp)
  · exact absurd h (by simp)

theorem findContentFromParagraphs_tag (doc : Node) (r : Node × String)
    (h : findContentFromParagraphs doc = some r) : r.2 = "paragraphs" := by
  simp only [findContentFromParagraphs] at h
  split at h
  · exact absurd h (by simp)
  · split at h
    · cases h; rfl
    · exact absurd h (by simp)

theorem foldl_paragraph_join :
    ∀ (ps : List Node) (acc : String),
      ps.foldl (fun acc p =>
        let pText := jsTrim (textContent p)
        if pText.length > 0 then acc ++ pText ++ "\n\n" else acc) acc =
      acc ++ joinAll ((ps.filterMap (fun p =>
        let t := jsTrim (textContent p)
        if t.length > 0 then some t else none)).map (fun t => t ++ "\n\n")) := by
  intro ps
  induction ps with
  | nil => intro acc; simp [joinAll]
  | cons p rest ih =>
    intro acc
    by_cases hp : (jsTrim (textContent p)).length > 0
    · simp only [List.foldl_cons, List.filterMap_cons, hp, if_pos, List.map_cons, joinAll, ih]
      simp [String.append_assoc]
    · simp only [List.foldl_cons, List.filterMap_cons, hp, if_neg, List.map_cons, joinAll, ih]
      simp [hp]

theorem calculateContentScore_C4 : calculateContentScore 1000 articleC4 = 26 / 5 := by
  have h1 : (elemQueryAll articleC4 [.tagSel "p"]).length = 2 := by decide
  have h2 : (jsTrim (textContent articleC4)).length = 120 := by decide
  have h3 : hasContentKeyword (jsToLower articleC4.className) = false := by decide
  have h4 : hasContentKeyword (jsToLower articleC4.idAttr) = false := by decide
  have h5 : hasNavKeyword (jsToLower articleC4.className) = false := by decide
  have h6 : articleC4.rect = none := rfl
  simp only [calculateContentScore, h1, h2, h3, h4, h5, h6]
  norm_num [geometryBonus]

theorem findContentByHeuristics_C4 : findContentByHeuristics 1000 docC4 = none := by
  have hq : querySelectorAll docC4
      [.tagSel "div", .tagSel "section", .tagSel "article", .tagSel "main"] = [articleC4] := rfl
  have hex : shouldExcludeElement articleC4 = false := by decide
  simp only [findContentByHeuristics, hq, List.filterMap, hex]
  rw [calculateContentScore_C4]
  norm_num [bestCandidate]

theorem locate_C4 : locate 1000 docC4 = none := by
  have hsem : findSemanticContent docC4 = none := rfl
  have hcls : findContentByClass docC4 = none := rfl
  have hpar : findContentFromParagraphs docC4 = none := rfl
  simp only [locate, hsem, hcls, findContentByHeuristics_C4, hpar]

theorem cleanText_data (s : String) :
    (cleanText s).data = trimChars (collapseWsStr s).data := by
  rw [cleanText_eq]
  rfl

theorem countWords_cleanText_pos (x : String) (h : 100 ≤ (cleanText x).length) :
    1 ≤ countWords (cleanText x) := by
  have hdata := cleanText_data x
  rcases hd : (cleanText x).data with - | ⟨c, t2⟩
  · rw [show (cleanText x).length = (cleanText x).data.length from rfl, hd] at h
    simp at h
  · have htr : trimChars (collapseWsStr x).data = c :: t2 := by
      rw [← hdata]
      exact hd
    exact countWords_pos _ c t2 hd (trimChars_head_not_ws _ c t2 htr)

/-! ### Claim theorems -/

/-- C10: every `ExtractionResult` returned by `extractArticleText`, on
success and on failure, carries `wordCount = countWords text` for its own
`text` field. -/
theorem wordCount_matches_text :
    ∀ (vw : ℚ) (selF : Selector → Bool) (fault : Option String) (doc : Node) (u t : String),
      (extractArticleText vw selF fault doc u t).wordCount =
        countWords (extractArticleText vw selF fault doc u t).text := by
  intro vw selF fault doc u t
  cases fault with
  | some msg => simp [extractArticleText, countWords]
  | none =>
    simp only [extractArticleText]
    rcases hloc : locate vw doc with - | ⟨e, m⟩
    · simp [extractArticleBody, hloc, countWords]
    · simp only [extractArticleBody, hloc]
      by_cases hlen : (cleanText (extractTextFromElement selF e)).length < 100
      · rw [if_pos hlen]
      · rw [if_neg hlen]

/-- C2: a fault inside `extractArticleText`'s try block is converted into a
`success = false` result with a non-empty error message; a fault raised by a
single exclusion selector during text extraction merely skips that
selector's removal pass (the other selectors still run) instead of aborting
the extraction; and a fault-free call returns the try-block body's result
unchanged, so the caller always receives an `ExtractionResult` and the
extractor never raises. -/
theorem extraction_faults_contained :
    (∀ (vw : ℚ) (selF : Selector → Bool) (msg : String) (doc : Node) (u t : String),
      (extractArticleText vw selF (some msg) doc u t).success = false ∧
      ∃ m, (extractArticleText vw selF (some msg) doc u t).error = some m ∧ m ≠ "") ∧
    (∀ (selF : Selector → Bool) (e : Node),
      extractTextFromElement selF e =
        extractTextWithSels (excludeSelectors.filter (fun s => !selF s)) e) ∧
    (∀ (vw : ℚ) (selF : Selector → Bool) (doc : Node) (u t : String),
      extractArticleText vw selF none doc u t = extractArticleBody vw selF doc u t) := by
  refine ⟨?_, ?_, ?_⟩
  · intro vw selF msg doc u t
    exact ⟨rfl, "Failed to extract article text: " ++ msg, rfl,
      append_ne_empty_left _ _ (by decide)⟩
  · intro selF e
    simp only [extractTextFromElement, extractTextWithSels, removeExcluded, foldl_skip_filter]
  · intro vw selF doc u t
    rfl

/-- Witness for C2 at a concrete fault: the caught exception becomes a
failure result with a populated message. -/
theorem extraction_faults_contained_witness :
    (extractArticleText 1000 noSelectorFaults (some "boom") docOK "u" "t").success = false ∧
    ∃ m, (extractArticleText 1000 noSelectorFaults (some "boom") docOK "u" "t").error =
      some m ∧ m ≠ "" :=
  extraction_faults_contained.1 1000 noSelectorFaults "boom" docOK "u" "t"

/-- C1: on `success = true` the returned text holds at least 100 characters
and the word count is at least 1; on `success = false` the error field is a
populated, non-empty message.  Stated for `extractArticleText` and for the
fallback listener's whole-page extraction. -/
theorem extractionResult_invariant :
    (∀ (vw : ℚ) (selF : Selector → Bool) (fault : Option String) (doc : Node) (u t : String),
      ((extractArticleText vw selF fault doc u t).success = true →
        100 ≤ (extractArticleText vw selF fault doc u t).text.length ∧
        1 ≤ (extractArticleText vw selF fault doc u t).wordCount) ∧
      ((extractArticleText vw selF fault doc u t).success = false →
        ∃ m, (extractArticleText vw selF fault doc u t).error = some m ∧ m ≠ "")) ∧
    (∀ (fault : Option String) (body : Node) (u t : String),
      ((fallbackExtract fault body u t).success = true →
        100 ≤ (fallbackExtract fault body u t).text.length ∧
        1 ≤ (fallbackExtract fault body u t).wordCount) ∧
      ((fallbackExtract fault body u t).success = false →
        ∃ m, (fallbackExtract fault body u t).error = some m ∧ m ≠ "")) := by
  constructor
  · intro vw selF fault doc u t
    cases fault with
    | some msg =>
      refine ⟨fun h => absurd h (by simp [extractArticleText]), fun _ => ?_⟩
      exact ⟨"Failed to extract article text: " ++ msg, rfl,
        append_ne_empty_left _ _ (by decide)⟩
    | none =>
      simp only [extractArticleText]
      rcases hloc : locate vw doc with - | ⟨e, m⟩
      · simp only [extractArticleBody, hloc]
        exact ⟨fun h => by simp at h, fun _ => ⟨_, rfl, by decide⟩⟩
      · simp only [extractArticleBody, hloc]
        generalize hcl : cleanText (extractTextFromElement selF e) = cl
        by_cases hlen : cl.length < 100
        · rw [if_pos hlen]
          exact ⟨fun h => by simp at h, fun _ => ⟨_, rfl, by decide⟩⟩
        · rw [if_neg hlen]
          refine ⟨fun _ => ⟨?_, ?_⟩, fun h => by simp at h⟩
          · show 100 ≤ cl.length
            omega
          · show 1 ≤ countWords cl
            rw [← hcl]
            refine countWords_cleanText_pos _ ?_
            rw [hcl]
            omega
  · intro fault body u t
    cases fault with
    | some msg =>
      refine ⟨fun h => absurd h (by simp [fallbackExtract]), fun _ => ?_⟩
      exact ⟨"Fallback extraction failed: " ++ msg, rfl,
        append_ne_empty_left _ _ (by decide)⟩
    | none =>
      simp only [fallbackExtract]
      generalize hct : jsTrim (collapseWsStr (textContent body)) = ct
      by_cases hlen : ct.length > 100
      · rw [if_pos hlen]
        refine ⟨fun _ => ⟨?_, ?_⟩, fun h => by simp at h⟩
        · show 100 ≤ (substringTo ct 5000).length
          have heq : (substringTo ct 5000).length = min 5000 ct.data.length := by
            show (ct.data.take 5000).length = _
            exact List.length_take 5000 _
          rw [heq]
          have hl : 100 < ct.data.length := hlen
          omega
        · show 1 ≤ (splitWs ct.data).length
          exact splitWsAux_length_pos _ false []
      · rw [if_neg hlen]
        exact ⟨fun h => by simp at h, fun _ => ⟨_, rfl, by decide⟩⟩

/-- Witness for C1 at a concrete successful extraction. -/
theorem extractionResult_invariant_witness :
    100 ≤ (extractArticleText 1000 noSelectorFaults none docOK "u" "t").text.length ∧
    1 ≤ (extractArticleText 1000 noSelectorFaults none docOK "u" "t").wordCount :=
  (extractionResult_invariant.1 1000 noSelectorFaults none docOK "u" "t").1 (by decide)

/-- C3: the locator runs the five strategies in the fixed order
semantic-article, semantic-main, class-based, heuristic, paragraphs; the
candidate is the first strategy success, tagged with exactly that
strategy's name, and a successful extraction reports that tag as its
extractionMethod (failures carry no method). -/
theorem strategy_order_and_method :
    ∀ (vw : ℚ) (doc : Node),
      locate vw doc =
        (strategyList vw).findSome? (fun st => (st.2 doc).map (fun e => (e, st.1))) ∧
      ∀ (selF : Selector → Bool) (u t : String),
        (extractArticleBody vw selF doc u t).extractionMethod =
          (if (extractArticleBody vw selF doc u t).success = true
           then (locate vw doc).map Prod.snd else none) := by
  intro vw doc
  constructor
  · simp only [strategyList, List.findSome?_cons, List.findSome?_nil]
    unfold locate findSemanticContent findContentByClass
    rcases h1 : (querySelector doc [.tagSel "article"]).filter isValidContent with - | a
    · rcases h2 : (querySelector doc [.tagSel "main"]).filter isValidContent with - | b
      · rcases h3 : contentSelectors.findSome?
            (fun sel => (querySelector doc [sel]).filter isValidContent) with - | c
        · rcases h4 : findContentByHeuristics vw doc with - | ⟨re, rm⟩
          · rcases h5 : findContentFromParagraphs doc with - | ⟨pe, pm⟩
            · simp [h1, h2, h3, h4, h5]
            · have hm := findContentFromParagraphs_tag doc (pe, pm) h5
              simp only at hm
              subst hm
              simp [h1, h2, h3, h4, h5]
          · have hm := findContentByHeuristics_tag vw doc (re, rm) h4
            simp only at hm
            subst hm
            simp [h1, h2, h3, h4]
        · simp [h1, h2, h3]
      · simp [h1, h2]
    · simp [h1]
  · intro selF u t
    rcases hloc : locate vw doc with - | ⟨e, m⟩
    · simp [extractArticleBody, hloc]
    · simp only [extractArticleBody, hloc]
      by_cases hlen : (cleanText (extractTextFromElement selF e)).length < 100
      · rw [if_pos hlen]
        simp
      · rw [if_neg hlen]
        simp

/-- Witness for C3 at a concrete document. -/
theorem strategy_order_and_method_witness :
    locate 1000 docOK =
      (strategyList 1000).findSome? (fun st => (st.2 docOK).map (fun e => (e, st.1))) :=
  (strategy_order_and_method 1000 docOK).1
theorem findSome?_eq_some_split {α β : Type} (f : α → Option β) (b : β) :
    ∀ (l : List α), l.findSome? f = some b ↔
      ∃ l1 x l2, l = l1 ++ x :: l2 ∧ (∀ y ∈ l1, f y = none) ∧ f x = some b := by
  intro l
  induction l with
  | nil =>
    constructor
    · intro h
      simp [List.findSome?_nil] at h
    · rintro ⟨l1, x, l2, heq, -, -⟩
      exact absurd heq.symm (by simp)
  | cons a l ih =>
    rw [List.findSome?_cons]
    rcases hfa : f a with - | v
    · constructor
      · intro h
        obtain ⟨l1, x, l2, heq, hn, hx⟩ := ih.mp h
        refine ⟨a :: l1, x, l2, by rw [heq]; rfl, ?_, hx⟩
        intro y hy
        rcases List.mem_cons.mp hy with rfl | hy2
        · exact hfa
        · exact hn y hy2
      · rintro ⟨l1, x, l2, heq, hn, hx⟩
        rcases l1 with - | ⟨c, cs⟩
        · simp only [List.nil_append] at heq
          obtain ⟨rfl, -⟩ := List.cons.injEq .. ▸ heq
          rw [hfa] at hx
          exact absurd hx (by simp)
        · simp only [List.cons_append] at heq
          obtain ⟨rfl, hl⟩ := List.cons.injEq .. ▸ heq
          exact ih.mpr ⟨cs, x, l2, hl, fun y hy => hn y (List.mem_cons_of_mem _ hy), hx⟩
    · constructor
      · intro h
        have hv : v = b := by simpa using h
        subst hv
        exact ⟨[], a, l, rfl, by simp, hfa⟩
      · rintro ⟨l1, x, l2, heq, hn, hx⟩
        rcases l1 with - | ⟨c, cs⟩
        · simp only [List.nil_append] at heq
          obtain ⟨rfl, -⟩ := List.cons.injEq .. ▸ heq
          rw [hfa] at hx
          simpa using hx
        · simp only [List.cons_append] at heq
          obtain ⟨rfl, -⟩ := List.cons.injEq .. ▸ heq
          have := hn a (by simp)
          rw [hfa] at this
          exact absurd this (by simp)

theorem option_filter_eq_some {p : Node → Bool} {o : Option Node} {a : Node} :
    o.filter p = some a ↔ o = some a ∧ p a = true := by
  rcases o with - | x
  · simp [Option.filter]
  · by_cases hp : p x
    · simp [Option.filter, hp]
      intro h
      subst h
      exact hp
    · simp [Option.filter, hp]
      intro h
      subst h
      simp [hp]

theorem option_filter_eq_none {p : Node → Bool} {o : Option Node} :
    o.filter p = none ↔ ∀ x, o = some x → p x = false := by
  rcases o with - | x
  · simp [Option.filter]
  · by_cases hp : p x
    · simp [Option.filter, hp]
    · simp [Option.filter, hp]

/-- C8: the class-based strategy tries the selectors in the fixed list
order, tests only each selector's first match in document order, returns
the node of the first selector whose first match is valid, and consults no
later selector after a valid match; results across selectors are never
merged or compared. -/
theorem classBased_first_valid_selector :
    ∀ (doc e : Node),
      findContentByClass doc = some (e, "class-based") ↔
        ∃ pre sel post, contentSelectors = pre ++ sel :: post ∧
          querySelector doc [sel] = some e ∧ isValidContent e = true ∧
          ∀ s ∈ pre, ∀ x, querySelector doc [s] = some x → isValidContent x = false := by
  intro doc e
  have hiff := findSome?_eq_some_split
    (fun sel => (querySelector doc [sel]).filter isValidContent) e contentSelectors
  unfold findContentByClass
  rcases h3 : contentSelectors.findSome?
      (fun sel => (querySelector doc [sel]).filter isValidContent) with - | c
  · constructor
    · intro h
      exact absurd h (by simp)
    · rintro ⟨pre, sel, post, heq, hq, hv, hpre⟩
      have hsome : contentSelectors.findSome?
          (fun sel => (querySelector doc [sel]).filter isValidContent) = some e := by
        refine hiff.mpr ⟨pre, sel, post, heq, ?_, ?_⟩
        · intro y hy
          exact option_filter_eq_none.mpr (hpre y hy)
        · rw [hq]
          exact option_filter_eq_some.mpr ⟨rfl, hv⟩
      rw [h3] at hsome
      exact absurd hsome (by simp)
  · rw [h3] at hiff
    constructor
    · intro h
      have hc : c = e := by
        have := (Option.some.injEq .. ▸ h)
        exact (Prod.mk.injEq .. ▸ this).1
      subst hc
      obtain ⟨pre, sel, post, heq, hnone, hsome⟩ := hiff.mp rfl
      obtain ⟨hq, hv⟩ := option_filter_eq_some.mp hsome
      refine ⟨pre, sel, post, heq, hq, hv, ?_⟩
      intro s hs x hx
      exact option_filter_eq_none.mp (hnone s hs) x hx
    · rintro ⟨pre, sel, post, heq, hq, hv, hpre⟩
      have hsome : some c = some e := by
        refine hiff.mpr ⟨pre, sel, post, heq, ?_, ?_⟩
        · intro y hy
          exact option_filter_eq_none.mpr (hpre y hy)
        · rw [hq]
          exact option_filter_eq_some.mpr ⟨rfl, hv⟩
      have : c = e := by simpa using hsome
      rw [this]

/-- Witness for C8: on a page whose only candidate is a div.content, the
strategy answers with that div under the first selector. -/
theorem classBased_first_valid_selector_witness :
    findContentByClass docC8 = some (divC8, "class-based") :=
  (classBased_first_valid_selector docC8 divC8).mpr
    ⟨[], .clsSel "content",
     [.clsSel "article-content", .clsSel "post-content", .clsSel "entry-content",
      .clsSel "article-body", .clsSel "post-body", .clsSel "story-body",
      .clsSel "article-text", .clsSel "content-body", .clsSel "main-content"],
     rfl, rfl, by decide, by simp⟩

/-- C9: with class, id and geometry held equal, the content score is
monotone when the paragraph count and the text length do not decrease;
and a class value carrying any of nav, sidebar, menu, footer lowers the
score by exactly 20, applied once however many of those keywords occur. -/
theorem contentScore_monotone_and_navPenalty :
    (∀ (vw : ℚ) (e1 e2 : Node),
      e1.className = e2.className → e1.idAttr = e2.idAttr → e1.rect = e2.rect →
      (elemQueryAll e1 [.tagSel "p"]).length ≤ (elemQueryAll e2 [.tagSel "p"]).length →
      (jsTrim (textContent e1)).length ≤ (jsTrim (textContent e2)).length →
      calculateContentScore vw e1 ≤ calculateContentScore vw e2) ∧
    (∀ (vw : ℚ) (e : Node), hasNavKeyword (jsToLower e.className) = true →
      calculateContentScore vw e = contentScoreSansNavPenalty vw e - 20) := by
  constructor
  · intro vw e1 e2 hc hi hr hp hl
    unfold calculateContentScore
    rw [hc, hi, hr]
    have hp2 : ((elemQueryAll e1 [.tagSel "p"]).length : ℚ) ≤
        ((elemQueryAll e2 [.tagSel "p"]).length : ℚ) := by exact_mod_cast hp
    have hl2 : (((jsTrim (textContent e1)).length : ℚ)) ≤
        (((jsTrim (textContent e2)).length : ℚ)) := by exact_mod_cast hl
    gcongr
  · intro vw e hnav
    unfold calculateContentScore contentScoreSansNavPenalty
    rw [hnav]
    simp only [if_true]
    ring

/-- Witness for C9 at concrete nodes. -/
theorem contentScore_monotone_and_navPenalty_witness :
    calculateContentScore 1000 articleC4 ≤ calculateContentScore 1000 articleOK ∧
    calculateContentScore 1000 navDiv = contentScoreSansNavPenalty 1000 navDiv - 20 :=
  ⟨contentScore_monotone_and_navPenalty.1 1000 articleC4 articleOK rfl rfl rfl
      (by decide) (by decide),
    contentScore_monotone_and_navPenalty.2 1000 navDiv (by decide)⟩
/-- Counterexample to C4: on the spec's example page (an article holding an
h1 and two roughly sixty-character paragraphs, nothing else) the combined
text is 120 characters, which fails isValidContent's 200-character bound,
so extraction does not succeed with method semantic-article — with geometry
unavailable it fails outright. -/
theorem semantic_example_counterexample :
    (extractArticleText 1000 noSelectorFaults none docC4 "u" "t").success = false ∧
    (extractArticleText 1000 noSelectorFaults none docC4 "u" "t").extractionMethod ≠
      some "semantic-article" := by
  have hb : extractArticleText 1000 noSelectorFaults none docC4 "u" "t" =
      { success := false,
        error := some "No article content found on this page. This might not be an article page.",
        text := "", wordCount := 0, url := "u", title := "t" } := by
    show extractArticleBody 1000 noSelectorFaults docC4 "u" "t" = _
    simp only [extractArticleBody, locate_C4]
  rw [hb]
  exact ⟨rfl, by simp⟩

/-- C4 amended: on that example page the article's trimmed text is only 120
characters, so `isValidContent` rejects it, every strategy fails (the
heuristic score is 26/5, below the threshold of 10, and only two paragraphs
exist), and `extractArticleText` returns success = false with the
no-content error rather than a semantic-article success. -/
theorem semantic_example_amended :
    (jsTrim (textContent articleC4)).length = 120 ∧
    isValidContent articleC4 = false ∧
    locate 1000 docC4 = none ∧
    extractArticleText 1000 noSelectorFaults none docC4 "u" "t" =
      { success := false,
        error := some "No article content found on this page. This might not be an article page.",
        text := "", wordCount := 0, url := "u", title := "t" } := by
  refine ⟨by decide, by decide, locate_C4, ?_⟩
  show extractArticleBody 1000 noSelectorFaults docC4 "u" "t" = _
  simp only [extractArticleBody, locate_C4]

/-- Counterexample to C6: a node whose center sits 20 units from the center
of a 100-unit viewport earns the +5 bonus although 20 is not within 30% of
the viewport's half-width (15) of the center: the source compares against
30% of the full width. -/
theorem geometry_bonus_counterexample :
    calculateContentScore 100 eC6 = contentScoreSansGeometry 100 eC6 + 5 ∧
    ¬ |(60 : ℚ) + 20 / 2 - 100 / 2| < (100 / 2) * (3 / 10) := by
  constructor
  · show contentScoreSansGeometry 100 eC6 + geometryBonus 100 eC6.rect =
      contentScoreSansGeometry 100 eC6 + 5
    congr 1
    norm_num [geometryBonus, eC6, Node.rect]
  · norm_num

/-- C6 amended: the scorer adds the geometry bonus on top of the rest of the
score, contributes exactly 0 when layout geometry is unavailable, and grants
+5 iff the node's horizontal center lies within 30% of the viewport's FULL
width (that is, 60% of its half-width) of the viewport center. -/
theorem geometry_bonus_characterization :
    ∀ (vw : ℚ) (e : Node),
      calculateContentScore vw e = contentScoreSansGeometry vw e + geometryBonus vw e.rect ∧
      geometryBonus vw none = 0 ∧
      ∀ r : Rect, (geometryBonus vw (some r) = 5 ↔
        |r.left + r.width / 2 - vw / 2| < vw * (3 / 10)) := by
  intro vw e
  refine ⟨rfl, rfl, ?_⟩
  intro r
  unfold geometryBonus
  by_cases hc : |r.left + r.width / 2 - vw / 2| < vw * (3 / 10)
  · simp [hc]
  · simp [hc]

/-- Witness for C6's amended characterization at a concrete rectangle. -/
theorem geometry_bonus_characterization_witness :
    geometryBonus 100 (some ⟨60, 20⟩) = 5 :=
  ((geometry_bonus_characterization 100 eC6).2.2 ⟨60, 20⟩).mpr (by norm_num)

/-- Counterexample to C7: the fallback's short-text branch retains the text
"hello world" but reports wordCount = 0 although the gathered text holds 2
whitespace-delimited tokens. -/
theorem fallback_wordCount_counterexample :
    (fallbackExtract none bodyC7 "u" "t").success = false ∧
    (fallbackExtract none bodyC7 "u" "t").text = "hello world" ∧
    (fallbackExtract none bodyC7 "u" "t").wordCount = 0 ∧
    countWords "hello world" = 2 :=
  ⟨rfl, rfl, rfl, by decide⟩

/-- C7 amended: on failure the short gathered text is retained in both
failure paths; the ContentTooShort branch of extractArticleText reports
wordCount = countWords(text), but the whole-page fallback's short-text
branch hard-codes wordCount = 0 regardless of the tokens in the retained
text. -/
theorem failure_retains_text_amended :
    (∀ (vw : ℚ) (selF : Selector → Bool) (doc : Node) (u t : String) (e : Node) (m : String),
      locate vw doc = some (e, m) →
      (cleanText (extractTextFromElement selF e)).length < 100 →
      extractArticleBody vw selF doc u t =
        { success := false,
          error := some "Article content too short for analysis (minimum 100 characters required)",
          text := cleanText (extractTextFromElement selF e),
          wordCount := countWords (cleanText (extractTextFromElement selF e)),
          url := u, title := t }) ∧
    (∀ (body : Node) (u t : String),
      ¬ (jsTrim (collapseWsStr (textContent body))).length > 100 →
      fallbackExtract none body u t =
        { success := false, error := some "Page content too short for analysis",
          text := jsTrim (collapseWsStr (textContent body)),
          wordCount := 0, url := u, title := t }) := by
  constructor
  · intro vw selF doc u t e m hloc hlen
    simp only [extractArticleBody, hloc]
    rw [if_pos hlen]
  · intro body u t hlen
    simp only [fallbackExtract]
    rw [if_neg hlen]

/-- Witness for C7's amended statement at a concrete short extraction. -/
theorem failure_retains_text_amended_witness :
    extractArticleBody 1000 noSelectorFaults docShort "u" "t" =
      { success := false,
        error := some "Article content too short for analysis (minimum 100 characters required)",
        text := cleanText (extractTextFromElement noSelectorFaults articleShort),
        wordCount := countWords (cleanText (extractTextFromElement noSelectorFaults articleShort)),
        url := "u", title := "t" } :=
  failure_retains_text_amended.1 1000 noSelectorFaults docShort "u" "t" articleShort
    "semantic-article" rfl (by decide)
theorem extractText_join (selF : Selector → Bool) (e : Node) :
    extractTextFromElement selF e =
      (if (jsTrim (joinAll ((paragraphTexts (removeExcluded selF e)).map
            (fun t => t ++ "\n\n")))).length = 0
       then textContent (removeExcluded selF e)
       else joinAll ((paragraphTexts (removeExcluded selF e)).map (fun t => t ++ "\n\n"))) := by
  have h2 : (elemQueryAll (removeExcluded selF e) paragraphHeadingSels).foldl
      (fun acc p =>
        let pText := jsTrim (textContent p)
        if pText.length > 0 then acc ++ pText ++ "\n\n" else acc) "" =
      joinAll ((paragraphTexts (removeExcluded selF e)).map (fun t => t ++ "\n\n")) := by
    rw [foldl_paragraph_join]
    rfl
  simp only [extractTextFromElement, h2]

theorem joined_trim_nil_iff (clone : Node) :
    (jsTrim (joinAll ((paragraphTexts clone).map (fun t => t ++ "\n\n")))).length = 0 ↔
      paragraphTexts clone = [] := by
  constructor
  · intro hz
    rcases hp : paragraphTexts clone with - | ⟨t0, rest⟩
    · rfl
    · exfalso
      have hmem : t0 ∈ paragraphTexts clone := by
        rw [hp]
        exact List.mem_cons_self _ _
      unfold paragraphTexts at hmem
      rw [List.mem_filterMap] at hmem
      obtain ⟨p, -, hfp⟩ := hmem
      simp only at hfp
      by_cases hl : (jsTrim (textContent p)).length > 0
      · rw [if_pos hl] at hfp
        have ht0 : t0 = jsTrim (textContent p) := by
          have := Option.some.injEq .. ▸ hfp
          exact this.symm
        have ht0len : 0 < t0.length := by rw [ht0]; exact hl
        rcases ht0d : t0.data with - | ⟨c, tt⟩
        · rw [show t0.length = t0.data.length from rfl, ht0d] at ht0len
          simp at ht0len
        · have htr : trimChars (textContent p).data = c :: tt := by
            have hteq : t0.data = trimChars (textContent p).data := by
              rw [ht0]
              rfl
            rw [← hteq]
            exact ht0d
          have hc : isWs c = false := trimChars_head_not_ws _ c tt htr
          have hcmem : c ∈ (joinAll (((t0 :: rest)).map (fun t => t ++ "\n\n"))).data := by
            simp only [List.map_cons, joinAll, String.data_append]
            rw [ht0d]
            simp
          rw [hp] at hz
          have hnil : trimChars (joinAll ((t0 :: rest).map (fun t => t ++ "\n\n"))).data = [] := by
            have := hz
            rw [show (jsTrim (joinAll ((t0 :: rest).map (fun t => t ++ "\n\n")))).length =
              (trimChars (joinAll ((t0 :: rest).map (fun t => t ++ "\n\n"))).data).length from rfl] at this
            exact List.length_eq_zero.mp this
          have := (trimChars_eq_nil_iff _).mp hnil c hcmem
          rw [this] at hc
          exact absurd hc (by simp)
      · rw [if_neg hl] at hfp
        exact absurd hfp (by simp)
  · intro hp
    rw [hp]
    rfl
/-- Counterexample to C5: on a candidate with two paragraphs the normalizer
joins them with double line breaks, but `cleanText`'s first replacement
collapses every whitespace run — line breaks included — to one space, so no
double line break survives into the final cleaned text. -/
theorem cleanText_breaks_counterexample :
    extractTextFromElement noSelectorFaults eC5 =
      "First paragraph of the story.\n\nSecond paragraph of the story.\n\n" ∧
    strIncludes (extractTextFromElement noSelectorFaults eC5) "\n\n" = true ∧
    strIncludes (cleanText (extractTextFromElement noSelectorFaults eC5)) "\n\n" = false :=
  ⟨by decide, by decide, by decide⟩

/-- C5 amended: the normalizer does join the trimmed, non-empty texts of the
paragraph- and heading-equivalent descendants, each followed by a double
line break (falling back to the filtered clone's text when there are none);
but the cleaning step equals collapse-all-whitespace-to-one-space followed
by trim — its 3-or-more-line-breaks rule never fires after that — so the
cleaned text contains no line break at all: paragraph-separating double
line breaks are replaced by single spaces, not preserved. -/
theorem normalizer_join_and_clean :
    (∀ (selF : Selector → Bool) (e : Node),
      extractTextFromElement selF e =
        (if paragraphTexts (removeExcluded selF e) = []
         then textContent (removeExcluded selF e)
         else joinAll ((paragraphTexts (removeExcluded selF e)).map (fun t => t ++ "\n\n")))) ∧
    (∀ s : String, cleanText s = jsTrim (collapseWsStr s)) ∧
    (∀ (s : String) (c : Char), c ∈ (cleanText s).data → c ≠ '\n') := by
  refine ⟨?_, cleanText_eq, ?_⟩
  · intro selF e
    rw [extractText_join]
    by_cases hp : paragraphTexts (removeExcluded selF e) = []
    · rw [if_pos ((joined_trim_nil_iff _).mpr hp), if_pos hp]
    · rw [if_neg (fun h => hp ((joined_trim_nil_iff _).mp h)), if_neg hp]
  · intro s c hc he
    exact cleanText_no_newline s (he ▸ hc)

/-- Witness for C5's amended statement at a concrete string. -/
theorem normalizer_join_and_clean_witness :
    cleanText "a\n\nb" = jsTrim (collapseWsStr "a\n\nb") :=
  normalizer_join_and_clean.2.1 "a\n\nb"
